import Mathlib

/-!
Shallow embedding of the xlAi Excel-Ollama plugin core
(`src/agents/base_agent.py`, `src/core/agent_controller.py`,
`src/core/ollama_client.py`) and proofs about its claimed properties.

Python dicts over string keys are modelled as association lists with
unique keys and insertion-order-preserving update (`dinsert` / `dget`).
Wall-clock time (`time.time()`) is modelled as an explicit rational
parameter passed to each call that reads the clock.  Dynamically typed
payload values (`Dict[str, Any]`) are modelled by the inductive `PyVal`.
-/

namespace XlAi

/-- Python dict values for `Dict[str, Any]` payloads. -/
inductive PyVal where
  | str : String → PyVal
  | rat : ℚ → PyVal
  | nat : Nat → PyVal
  | list : List PyVal → PyVal
  | dict : List (String × PyVal) → PyVal
  | df : List String → List Char → PyVal
  | none : PyVal

/-- Python dict assignment `d[k] = v`: update in place if the key is
present, else append (insertion order preserved). -/
def dinsert {α : Type} (d : List (String × α)) (k : String) (v : α) :
    List (String × α) :=
  match d with
  | [] => [(k, v)]
  | (k0, v0) :: rest =>
      if k0 = k then (k, v) :: rest else (k0, v0) :: dinsert rest k v

/-- Python dict read `d.get(k)`: first binding of the key, if any. -/
def dget {α : Type} (d : List (String × α)) (k : String) : Option α :=
  match d with
  | [] => Option.none
  | (k0, v0) :: rest => if k0 = k then some v0 else dget rest k

/-- `base_agent.MessageType`. -/
inductive MessageType where
  | request
  | response
  | notification
  | error
  deriving Repr, DecidableEq

/-- `base_agent.AgentStatus`. -/
inductive AgentStatus where
  | idle
  | busy
  | error
  | stopped
  deriving Repr, DecidableEq

/-- `base_agent.AgentMessage`. -/
structure AgentMessage where
  id : String
  sender : String
  recipient : String
  message_type : MessageType
  payload : List (String × PyVal)
  timestamp : ℚ
  correlation_id : Option String

/-- `base_agent.AgentCapability` together with the identity of an agent:
the fields of `BaseAgent` that capability dispatch reads. -/
structure Agent where
  agent_id : String
  agent_type : String
  supported_analysis_types : List String
  required_data_types : List String
  output_formats : List String
  deriving Repr, DecidableEq

/-- `BaseAgent.can_handle` (base_agent.py lines 148-151): membership of the
analysis type in `supported_analysis_types` AND of the data type in
`required_data_types`.  It reads the agent and returns a Bool; it is pure
(no field of the agent is written). -/
def canHandle (a : Agent) (analysis_type data_type : String) : Bool :=
  a.supported_analysis_types.contains analysis_type &&
    a.required_data_types.contains data_type

/-- The mutable per-agent state touched by `process_message`. -/
structure AgentState where
  status : AgentStatus
  results_cache : List (String × List (String × PyVal))

/-- `BaseAgent._handle_request` (base_agent.py lines 104-125).
`proc` models the abstract `_process_request` of the concrete agent:
it returns the result payload or the textual form of a raised exception.
`freshId` models the uuid4 drawn for the new message and `now` its
`time.time()` timestamp. -/
def handleRequest (agent_id : String)
    (proc : List (String × PyVal) → Except String (List (String × PyVal)))
    (freshId : String) (now : ℚ) (st : AgentState) (m : AgentMessage) :
    AgentState × Option AgentMessage :=
  match proc m.payload with
  | .ok result =>
      ({ st with status := .idle },
        some { id := freshId, sender := agent_id, recipient := m.sender,
               message_type := .response, payload := result,
               timestamp := now, correlation_id := some m.id })
  | .error e =>
      ({ st with status := .error },
        some { id := freshId, sender := agent_id, recipient := m.sender,
               message_type := .error, payload := [("error", .str e)],
               timestamp := now, correlation_id := some m.id })

/-- `BaseAgent._handle_response` (base_agent.py lines 127-131). -/
def handleResponse (st : AgentState) (m : AgentMessage) : AgentState :=
  match m.correlation_id with
  | some cid => { st with results_cache := dinsert st.results_cache cid m.payload }
  | Option.none => st

/-- `BaseAgent.process_message` (base_agent.py lines 81-102).  The handler
table built by `_setup_message_handlers` maps every `MessageType` to a
handler, so the unknown-type branch is unreachable; the only exception
source, `_process_request`, is already caught inside `_handle_request`. -/
def processMessage (agent_id : String)
    (proc : List (String × PyVal) → Except String (List (String × PyVal)))
    (freshId : String) (now : ℚ) (st : AgentState) (m : AgentMessage) :
    AgentState × Option AgentMessage :=
  match m.message_type with
  | .request => handleRequest agent_id proc freshId now st m
  | .response => (handleResponse st m, Option.none)
  | .notification => (st, Option.none)
  | .error => (st, Option.none)

/-- `ollama_client.CircuitBreaker` state tag (the string `self.state`). -/
inductive CBState where
  | closed
  | open
  | halfOpen
  deriving Repr, DecidableEq

/-- `ollama_client.CircuitBreaker` (ollama_client.py lines 47-80). -/
structure CircuitBreaker where
  failure_threshold : Nat
  recovery_timeout : ℚ
  failure_count : Nat
  last_failure_time : ℚ
  state : CBState
  deriving Repr, DecidableEq

namespace CircuitBreaker

/-- `CircuitBreaker.__init__`. -/
def init (failure_threshold : Nat := 5) (recovery_timeout : ℚ := 60) :
    CircuitBreaker :=
  { failure_threshold := failure_threshold,
    recovery_timeout := recovery_timeout,
    failure_count := 0, last_failure_time := 0, state := .closed }

/-- `CircuitBreaker.can_execute` (lines 57-67); `now` is `time.time()`.
Returns the Bool and the possibly updated breaker (open → half-open). -/
def canExecute (cb : CircuitBreaker) (now : ℚ) : Bool × CircuitBreaker :=
  match cb.state with
  | .closed => (true, cb)
  | .open =>
      if now - cb.last_failure_time > cb.recovery_timeout then
        (true, { cb with state := .halfOpen })
      else
        (false, cb)
  | .halfOpen => (true, cb)

/-- `CircuitBreaker.record_success` (lines 69-72). -/
def recordSuccess (cb : CircuitBreaker) : CircuitBreaker :=
  { cb with failure_count := 0, state := .closed }

/-- `CircuitBreaker.record_failure` (lines 74-80); `now` is `time.time()`. -/
def recordFailure (cb : CircuitBreaker) (now : ℚ) : CircuitBreaker :=
  let c := cb.failure_count + 1
  { cb with failure_count := c, last_failure_time := now,
            state := if c ≥ cb.failure_threshold then .open else cb.state }

/-- A sequence of `record_failure` calls at the given times. -/
def applyFailures (cb : CircuitBreaker) (ts : List ℚ) : CircuitBreaker :=
  ts.foldl recordFailure cb

end CircuitBreaker

/-- The fields of a `pandas.DataFrame` that the controller reads:
the column labels and, per column, the dtype kind character. -/
structure DataFrame where
  columns : List String
  kinds : List Char

/-- `AgentController._determine_data_type` (agent_controller.py lines
260-270): `'date' in data.columns or 'time' in data.columns` ⇒
time_series; `len(data.columns) > 10` ⇒ multivariate;
`data.dtypes.apply(lambda x: x.kind in 'biufc').all()` ⇒ numerical;
else mixed. -/
def determineDataType (data : DataFrame) : String :=
  if data.columns.contains "date" || data.columns.contains "time" then
    "time_series"
  else if data.columns.length > 10 then
    "multivariate"
  else if data.kinds.all (fun k => "biufc".toList.contains k) then
    "numerical"
  else
    "mixed"

/-- `agent_controller.AnalysisTask`. -/
structure AnalysisTask where
  task_id : String
  data : DataFrame
  analysis_type : String
  parameters : List (String × PyVal)
  user_query : Option String
  priority : Nat
  created_at : ℚ

/-- `agent_controller.AnalysisResult` (after `__post_init__`:
`visualizations` and `timestamp` are filled in). -/
structure AnalysisResult where
  task_id : String
  agent_id : String
  results : List (String × PyVal)
  confidence_score : ℚ
  methodology : String
  visualizations : List PyVal
  timestamp : ℚ

/-- `AgentController.get_agents_by_capability` (lines 86-92): collect the
agents whose `can_handle` accepts the pair, in registration order. -/
def getAgentsByCapability (agents : List Agent)
    (analysis_type data_type : String) : List Agent :=
  agents.filter (fun a => canHandle a analysis_type data_type)

/-- The controller results cache `Dict[str, AnalysisResult]`. -/
abbrev ResultsCache : Type := List (String × AnalysisResult)

/-- One iteration of `AgentController._task_processor` (lines 163-234)
after a task has been dequeued.  `respond` abstracts
`selected_agent.process_message` for the concrete agent classes; `now`
is the `time.time()` stamped into a freshly built `AnalysisResult` or
`AgentMessage` by the dataclass defaults, `requestId` the uuid4 drawn
for the request message.  Returns the updated results cache. -/
def taskProcessorStep (agents : List Agent)
    (respond : Agent → AgentMessage → Option AgentMessage)
    (requestId : String) (now : ℚ)
    (cache : ResultsCache) (task : AnalysisTask) : ResultsCache :=
  let data_type := determineDataType task.data
  let capable_agents := getAgentsByCapability agents task.analysis_type data_type
  match capable_agents with
  | [] =>
      dinsert cache task.task_id
        { task_id := task.task_id, agent_id := "system",
          results := [("error",
            .str ("No agents capable of handling " ++ task.analysis_type ++
              " for " ++ data_type))],
          confidence_score := 0, methodology := "error",
          visualizations := [], timestamp := now }
  | selected_agent :: _ =>
      let request_message : AgentMessage :=
        { id := requestId, sender := "controller",
          recipient := selected_agent.agent_id, message_type := .request,
          payload :=
            [("task_id", .str task.task_id),
             ("data", .df task.data.columns task.data.kinds),
             ("analysis_type", .str task.analysis_type),
             ("parameters", .dict task.parameters),
             ("user_query",
               match task.user_query with
               | some q => .str q
               | Option.none => .none)],
          timestamp := now, correlation_id := Option.none }
      match respond selected_agent request_message with
      | some response =>
          if response.message_type = .response then
            dinsert cache task.task_id
              { task_id := task.task_id,
                agent_id := selected_agent.agent_id,
                results :=
                  (match dget response.payload "results" with
                   | some (.dict d) => d
                   | _ => []),
                confidence_score :=
                  (match dget response.payload "confidence_score" with
                   | some (.rat c) => c
                   | _ => 0),
                methodology :=
                  (match dget response.payload "methodology" with
                   | some (.str s) => s
                   | _ => "unknown"),
                visualizations :=
                  (match dget response.payload "visualizations" with
                   | some (.list v) => v
                   | _ => []),
                timestamp := now }
          else if response.message_type = .error then
            dinsert cache task.task_id
              { task_id := task.task_id,
                agent_id := selected_agent.agent_id,
                results :=
                  [("error",
                    match dget response.payload "error" with
                    | some v => v
                    | Option.none => .str "Unknown error")],
                confidence_score := 0, methodology := "error",
                visualizations := [], timestamp := now }
          else cache
      | Option.none => cache

/-- `AgentController.clear_cache` (lines 286-295): collect the keys whose
result's age exceeds `max_age_seconds` strictly, then delete them.  On
the association-list model this keeps exactly the entries with
`current_time - timestamp ≤ max_age_seconds`. -/
def clearCache (current_time : ℚ) (max_age_seconds : ℚ)
    (cache : ResultsCache) : ResultsCache :=
  List.filter
    (fun kv => decide (¬ current_time - kv.2.timestamp > max_age_seconds))
    cache

/-- Outcome of one underlying `requests.request` call: an HTTP response
(status code and body) or a raised transport exception. -/
inductive TransportResult where
  | resp : Nat → String → TransportResult
  | exn : String → TransportResult

/-- Whether an outcome takes the failure (`except`) path of the loop
body: a raised transport exception, or a 4xx/5xx status — those are the
only statuses `requests.Response.raise_for_status()` raises for.  A
non-200 status outside 400-599 (e.g. 204) raises nothing: the `try`
block completes and the loop advances silently. -/
def TransportResult.isFail : TransportResult → Bool
  | .resp code _ => decide (400 ≤ code ∧ code < 600)
  | .exn _ => true

/-- The exception message the failure path propagates for an outcome. -/
def TransportResult.errMsg : TransportResult → String
  | .resp code _ => "HTTP error " ++ toString code
  | .exn msg => msg

/-- Observable trace of one `_make_sync_request` call: the returned
response or the raised exception, the number of underlying
`requests.request` invocations, the backoff sleep durations in order,
and the final circuit-breaker state. -/
structure RequestTrace where
  result : Except String (Nat × String)
  calls : Nat
  sleeps : List Nat
  breaker : CircuitBreaker

/-- The `except` block of the retry loop (lines 135-142): record the
failure on the breaker; re-raise on the final attempt, otherwise sleep
`2 ** attempt` and continue with the rest of the loop (`rest`).
`callsHere` is the number of transport invocations of this iteration
(1 on a network failure, 0 when the circuit breaker refused). -/
def failCont (errMsg : String) (callsHere : Nat) (attempt max_retries : Nat)
    (cb2 : CircuitBreaker) (rest : RequestTrace) : RequestTrace :=
  if attempt = max_retries then
    { result := .error errMsg, calls := callsHere, sleeps := [],
      breaker := cb2 }
  else
    { result := rest.result, calls := callsHere + rest.calls,
      sleeps := 2 ^ attempt :: rest.sleeps, breaker := rest.breaker }

/-- The loop body of `OllamaClient._make_sync_request` (ollama_client.py
lines 116-144), one iteration per attempt.  `transport i` is the outcome
`requests.request` would produce at attempt `i`; `times i` the
`time.time()` reading during attempt `i`.  The circuit-breaker check sits
INSIDE the `try`, so its raise is caught by the same `except` as network
failures: a failure is recorded and, unless `attempt == max_retries`,
the loop sleeps `2 ** attempt` and continues.  A non-200 status enters
the `except` only when `raise_for_status()` actually raises, i.e. for
4xx/5xx; any other non-200 status (e.g. 204) completes the `try` block
and the `for` loop advances with no failure recorded and no sleep.
`fuel` counts the iterations the `for` loop still owns
(`max_retries + 1` at entry); the fuel-exhausted branch is the trailing
raise at line 144, reached exactly when every attempt ends in such a
silent non-error non-200 status. -/
def syncGo (transport : Nat → TransportResult) (times : Nat → ℚ)
    (max_retries : Nat) : Nat → Nat → CircuitBreaker → RequestTrace
  | 0, _, cb =>
      { result := .error ("Failed to make request after " ++
          toString (max_retries + 1) ++ " attempts"),
        calls := 0, sleeps := [], breaker := cb }
  | fuel + 1, attempt, cb =>
      let ce := cb.canExecute (times attempt)
      if ce.1 then
        match transport attempt with
        | .resp code body =>
            if code = 200 then
              { result := .ok (code, body), calls := 1, sleeps := [],
                breaker := ce.2.recordSuccess }
            else if 400 ≤ code ∧ code < 600 then
              failCont ("HTTP error " ++ toString code) 1 attempt max_retries
                (ce.2.recordFailure (times attempt))
                (syncGo transport times max_retries fuel (attempt + 1)
                  (ce.2.recordFailure (times attempt)))
            else
              let rest := syncGo transport times max_retries fuel (attempt + 1)
                ce.2
              { result := rest.result, calls := 1 + rest.calls,
                sleeps := rest.sleeps, breaker := rest.breaker }
        | .exn msg =>
            failCont msg 1 attempt max_retries
              (ce.2.recordFailure (times attempt))
              (syncGo transport times max_retries fuel (attempt + 1)
                (ce.2.recordFailure (times attempt)))
      else
        failCont "Circuit breaker is open" 0 attempt max_retries
          (ce.2.recordFailure (times attempt))
          (syncGo transport times max_retries fuel (attempt + 1)
            (ce.2.recordFailure (times attempt)))

/-- `OllamaClient._make_sync_request`: run the retry loop from attempt 0
with the client's breaker.  (`_make_async_request`, lines 146-172, is the
same control flow with `asyncio.sleep` in place of `time.sleep`.) -/
def makeSyncRequest (transport : Nat → TransportResult) (times : Nat → ℚ)
    (max_retries : Nat) (cb : CircuitBreaker) : RequestTrace :=
  syncGo transport times max_retries (max_retries + 1) 0 cb

/-- The whitelist `valid_params` of
`OllamaClient.configure_model_parameters` (lines 332-343). -/
def valid_params : List String :=
  ["temperature", "top_p", "top_k", "num_predict",
   "num_ctx", "repeat_penalty", "seed"]

/-- `OllamaClient.configure_model_parameters` (lines 332-343): for each
keyword argument in order, write it into `model_config` when its key is
whitelisted, else drop it (the Python emits a warning print). -/
def configureModelParameters (model_config : List (String × PyVal))
    (kwargs : List (String × PyVal)) : List (String × PyVal) :=
  kwargs.foldl
    (fun cfg kv =>
      if valid_params.contains kv.1 then dinsert cfg kv.1 kv.2 else cfg)
    model_config


/-! ### Helper lemmas -/

theorem list_contains_iff {α : Type} [BEq α] [LawfulBEq α] (l : List α)
    (a : α) : l.contains a = true ↔ a ∈ l := by
  simp [List.contains, List.elem_iff]

theorem dget_dinsert_self {α : Type} (d : List (String × α)) (k : String)
    (v : α) : dget (dinsert d k v) k = some v := by
  induction d with
  | nil => simp [dinsert, dget]
  | cons kv rest ih =>
      obtain ⟨k0, v0⟩ := kv
      by_cases h : k0 = k
      · simp [dinsert, dget, h]
      · simp [dinsert, dget, h, ih]

theorem dget_dinsert_ne {α : Type} (d : List (String × α)) (k k' : String)
    (v : α) (h : k' ≠ k) : dget (dinsert d k v) k' = dget d k' := by
  have hkk : ¬(k = k') := fun hh => h hh.symm
  induction d with
  | nil => simp [dinsert, dget, hkk]
  | cons kv rest ih =>
      obtain ⟨k0, v0⟩ := kv
      by_cases h0 : k0 = k
      · subst h0
        simp [dinsert, dget, hkk]
      · simp only [dinsert, if_neg h0]
        by_cases h1 : k0 = k'
        · simp [dget, h1]
        · simp [dget, h1, ih]

/-! ### Claims -/

/-- C1: `can_handle(analysis_type, data_type)` is true iff the analysis
type is a member of `capabilities.supported_analysis_types` and the data
type is a member of `capabilities.required_data_types`.  The embedding
`canHandle` is a pure `Bool`-valued function of the agent record, which
is the formal content of "side-effect-free": it writes no agent state. -/
theorem can_handle_iff_membership (a : Agent) (analysis_type data_type : String) :
    canHandle a analysis_type data_type = true ↔
      (analysis_type ∈ a.supported_analysis_types ∧
        data_type ∈ a.required_data_types) := by
  simp [canHandle, List.contains, List.elem_iff]

/-- C8: `_determine_data_type` returns one of exactly four strings in a
fixed precedence order: a column literally named `date` or `time` forces
`"time_series"` regardless of the column count or dtypes; otherwise more
than 10 columns forces `"multivariate"`; otherwise all dtype kinds in
`'biufc'` forces `"numerical"`; otherwise `"mixed"`. -/
theorem determine_data_type_fixed_order (df : DataFrame) :
    (determineDataType df = "time_series" ∨
      determineDataType df = "multivariate" ∨
      determineDataType df = "numerical" ∨
      determineDataType df = "mixed") ∧
    (("date" ∈ df.columns ∨ "time" ∈ df.columns) →
      determineDataType df = "time_series") ∧
    (¬("date" ∈ df.columns ∨ "time" ∈ df.columns) → df.columns.length > 10 →
      determineDataType df = "multivariate") ∧
    (¬("date" ∈ df.columns ∨ "time" ∈ df.columns) → df.columns.length ≤ 10 →
      (∀ k ∈ df.kinds, k ∈ "biufc".toList) →
      determineDataType df = "numerical") ∧
    (¬("date" ∈ df.columns ∨ "time" ∈ df.columns) → df.columns.length ≤ 10 →
      ¬(∀ k ∈ df.kinds, k ∈ "biufc".toList) →
      determineDataType df = "mixed") := by
  have hdiff : (df.columns.contains "date" || df.columns.contains "time") = true ↔
      ("date" ∈ df.columns ∨ "time" ∈ df.columns) := by
    rw [Bool.or_eq_true, list_contains_iff, list_contains_iff]
  have hniff : (df.kinds.all (fun k => "biufc".toList.contains k)) = true ↔
      (∀ k ∈ df.kinds, k ∈ "biufc".toList) := by
    rw [List.all_eq_true]
    constructor
    · intro hx k hk
      exact (list_contains_iff _ _).1 (hx k hk)
    · intro hx k hk
      exact (list_contains_iff _ _).2 (hx k hk)
  unfold determineDataType
  by_cases hd : "date" ∈ df.columns ∨ "time" ∈ df.columns
  · rw [if_pos (hdiff.2 hd)]
    exact ⟨Or.inl rfl, fun _ => rfl, fun hc => absurd hd hc,
      fun hc => absurd hd hc, fun hc => absurd hd hc⟩
  · rw [if_neg (fun hb => hd (hdiff.1 hb))]
    by_cases hlen : df.columns.length > 10
    · rw [if_pos hlen]
      exact ⟨Or.inr (Or.inl rfl), fun h => absurd h hd, fun _ _ => rfl,
        fun _ h _ => absurd hlen (by omega), fun _ h _ => absurd hlen (by omega)⟩
    · rw [if_neg hlen]
      by_cases hnum : ∀ k ∈ df.kinds, k ∈ "biufc".toList
      · rw [if_pos (hniff.2 hnum)]
        exact ⟨Or.inr (Or.inr (Or.inl rfl)), fun h => absurd h hd,
          fun _ h => absurd h hlen, fun _ _ _ => rfl,
          fun _ _ h => absurd hnum h⟩
      · rw [if_neg (fun hb => hnum (hniff.1 hb))]
        exact ⟨Or.inr (Or.inr (Or.inr rfl)), fun h => absurd h hd,
          fun _ h => absurd h hlen, fun _ _ h => absurd h hnum,
          fun _ _ _ => rfl⟩

/-- Witness for C8 at a concrete two-column all-numeric frame. -/
theorem determine_data_type_fixed_order_witness :
    determineDataType ⟨["x", "y"], ['i', 'f']⟩ = "numerical" :=
  (determine_data_type_fixed_order ⟨["x", "y"], ['i', 'f']⟩).2.2.2.1
    (by decide) (by decide) (by decide)

/-- C7: cache eviction is age-based only.  An entry strictly older than
`max_age_seconds` is removed, an entry strictly younger is retained, and
in general an entry survives `clear_cache` iff it was present and its age
`current_time - timestamp` is at most `max_age_seconds`. -/
theorem clear_cache_age_based (now max_age : ℚ) (cache : ResultsCache)
    (k1 k2 : String) (r1 r2 : AnalysisResult)
    (h1 : (k1, r1) ∈ cache) (h2 : (k2, r2) ∈ cache)
    (ht1 : r1.timestamp < now - max_age) (ht2 : now - max_age < r2.timestamp) :
    (k1, r1) ∉ clearCache now max_age cache ∧
    (k2, r2) ∈ clearCache now max_age cache ∧
    (∀ k r, (k, r) ∈ clearCache now max_age cache ↔
      ((k, r) ∈ cache ∧ now - r.timestamp ≤ max_age)) := by
  have hmem : ∀ k r, (k, r) ∈ clearCache now max_age cache ↔
      ((k, r) ∈ cache ∧ now - r.timestamp ≤ max_age) := by
    intro k r
    unfold clearCache
    rw [List.mem_filter]
    simp only [decide_eq_true_eq, not_lt]
  refine ⟨?_, ?_, hmem⟩
  · intro hmem1
    have := ((hmem k1 r1).1 hmem1).2
    linarith
  · exact (hmem k2 r2).2 ⟨h2, by linarith⟩

/-- Witness for C7: with `now = 100`, `max_age = 10`, an entry stamped 80
is evicted and an entry stamped 95 survives. -/
theorem clear_cache_age_based_witness :
    ("old", (⟨"old", "a", [], 0, "m", [], 80⟩ : AnalysisResult)) ∉
      clearCache 100 10
        [("old", ⟨"old", "a", [], 0, "m", [], 80⟩),
         ("new", ⟨"new", "a", [], 0, "m", [], 95⟩)] ∧
    ("new", (⟨"new", "a", [], 0, "m", [], 95⟩ : AnalysisResult)) ∈
      clearCache 100 10
        [("old", ⟨"old", "a", [], 0, "m", [], 80⟩),
         ("new", ⟨"new", "a", [], 0, "m", [], 95⟩)] := by
  have h := clear_cache_age_based 100 10
    [("old", ⟨"old", "a", [], 0, "m", [], 80⟩),
     ("new", ⟨"new", "a", [], 0, "m", [], 95⟩)]
    "old" "new" ⟨"old", "a", [], 0, "m", [], 80⟩ ⟨"new", "a", [], 0, "m", [], 95⟩
    (by simp) (by simp) (by norm_num) (by norm_num)
  exact ⟨h.1, h.2.1⟩

/-- C10: boundary behaviour of eviction.  An entry whose age is exactly
`max_age_seconds` is retained, because eviction requires the age to be
strictly greater. -/
theorem clear_cache_keeps_exact_age (now max_age : ℚ) (cache : ResultsCache)
    (k : String) (r : AnalysisResult) (hmem : (k, r) ∈ cache)
    (hage : now - r.timestamp = max_age) :
    (k, r) ∈ clearCache now max_age cache := by
  unfold clearCache
  rw [List.mem_filter]
  exact ⟨hmem, by simp [hage]⟩

/-- Witness for C10: with `now = 100` and `max_age = 10`, an entry
stamped 90 (age exactly 10) survives. -/
theorem clear_cache_keeps_exact_age_witness :
    ("t", (⟨"t", "a", [], 0, "m", [], 90⟩ : AnalysisResult)) ∈
      clearCache 100 10 [("t", ⟨"t", "a", [], 0, "m", [], 90⟩)] :=
  clear_cache_keeps_exact_age 100 10
    [("t", ⟨"t", "a", [], 0, "m", [], 90⟩)]
    "t" ⟨"t", "a", [], 0, "m", [], 90⟩ (by simp) (by norm_num)

/-- C2: when no registered agent can handle the dequeued task's
`(analysis_type, inferred data_type)` pair, `_task_processor` stores in
the results cache, under the task's id, the synthesized system error
result with `agent_id = "system"`,
`results = {"error": "No agents capable of handling <analysis_type> for
<data_type>"}`, `confidence_score = 0.0` and `methodology = "error"`.
The branch is modelled by the total function `taskProcessorStep`, so it
produces this cache entry on every such input and raises nothing to the
submitter. -/
theorem task_processor_unroutable_stores_system_error
    (agents : List Agent)
    (respond : Agent → AgentMessage → Option AgentMessage)
    (requestId : String) (now : ℚ) (cache : ResultsCache)
    (task : AnalysisTask)
    (hnone : getAgentsByCapability agents task.analysis_type
      (determineDataType task.data) = []) :
    dget (taskProcessorStep agents respond requestId now cache task)
        task.task_id =
      some { task_id := task.task_id, agent_id := "system",
             results := [("error",
               .str ("No agents capable of handling " ++ task.analysis_type ++
                 " for " ++ determineDataType task.data))],
             confidence_score := 0, methodology := "error",
             visualizations := [], timestamp := now } := by
  simp only [taskProcessorStep, hnone]
  exact dget_dinsert_self cache task.task_id _

/-- Witness for C2: an empty agent registry cannot route a
`"trend_analysis"` task over a single non-numeric column. -/
theorem task_processor_unroutable_stores_system_error_witness :
    getAgentsByCapability [] "trend_analysis"
      (determineDataType ⟨["name"], ['O']⟩) = [] ∧
    dget (taskProcessorStep [] (fun _ _ => Option.none) "req-1" 7 []
        ⟨"task-1", ⟨["name"], ['O']⟩, "trend_analysis", [], Option.none, 1, 0⟩)
        "task-1" =
      some { task_id := "task-1", agent_id := "system",
             results := [("error",
               .str ("No agents capable of handling " ++ "trend_analysis" ++
                 " for " ++ determineDataType ⟨["name"], ['O']⟩))],
             confidence_score := 0, methodology := "error",
             visualizations := [], timestamp := 7 } :=
  ⟨rfl, task_processor_unroutable_stores_system_error [] (fun _ _ => Option.none)
    "req-1" 7 []
    ⟨"task-1", ⟨["name"], ['O']⟩, "trend_analysis", [], Option.none, 1, 0⟩ rfl⟩

/-- C3: delivering a REQUEST message with id `X` to `process_message`
returns a message (RESPONSE when `_process_request` succeeds, ERROR when
it raises) whose `correlation_id` is `X` and whose `recipient` is the
original sender. -/
theorem process_message_request_correlation (agent_id : String)
    (proc : List (String × PyVal) → Except String (List (String × PyVal)))
    (freshId : String) (now : ℚ) (st : AgentState) (m : AgentMessage)
    (hreq : m.message_type = .request) :
    ∃ r : AgentMessage,
      (processMessage agent_id proc freshId now st m).2 = some r ∧
      r.correlation_id = some m.id ∧ r.recipient = m.sender ∧
      (r.message_type = .response ∨ r.message_type = .error) := by
  unfold processMessage
  rw [hreq]
  unfold handleRequest
  cases hp : proc m.payload with
  | ok result =>
      exact ⟨_, rfl, rfl, rfl, Or.inl rfl⟩
  | error e =>
      exact ⟨_, rfl, rfl, rfl, Or.inr rfl⟩

/-- Witness for C3 on a concrete REQUEST whose processing raises. -/
theorem process_message_request_correlation_witness :
    ∃ r : AgentMessage,
      (processMessage "analysis_1" (fun _ => .error "boom") "fresh-9" 3
          ⟨.idle, []⟩
          ⟨"msg-42", "controller", "analysis_1", .request, [], 2,
            Option.none⟩).2 = some r ∧
      r.correlation_id = some "msg-42" ∧ r.recipient = "controller" ∧
      (r.message_type = .response ∨ r.message_type = .error) :=
  process_message_request_correlation "analysis_1" (fun _ => .error "boom")
    "fresh-9" 3 ⟨.idle, []⟩
    ⟨"msg-42", "controller", "analysis_1", .request, [], 2, Option.none⟩ rfl

theorem configure_keeps_unpassed (kwargs : List (String × PyVal))
    (cfg : List (String × PyVal)) (k : String)
    (hk : k ∉ kwargs.map Prod.fst) :
    dget (configureModelParameters cfg kwargs) k = dget cfg k := by
  induction kwargs generalizing cfg with
  | nil => rfl
  | cons kv rest ih =>
      obtain ⟨k0, v0⟩ := kv
      simp only [List.map_cons, List.mem_cons] at hk
      push_neg at hk
      show dget (configureModelParameters
        (if valid_params.contains k0 then dinsert cfg k0 v0 else cfg) rest) k
          = dget cfg k
      by_cases hv : valid_params.contains k0
      · rw [if_pos hv, ih _ hk.2, dget_dinsert_ne cfg k0 k v0 hk.1]
      · rw [if_neg hv, ih _ hk.2]

theorem configure_keeps_unlisted (kwargs : List (String × PyVal))
    (cfg : List (String × PyVal)) (k : String)
    (hk : k ∉ valid_params) :
    dget (configureModelParameters cfg kwargs) k = dget cfg k := by
  induction kwargs generalizing cfg with
  | nil => rfl
  | cons kv rest ih =>
      obtain ⟨k0, v0⟩ := kv
      show dget (configureModelParameters
        (if valid_params.contains k0 then dinsert cfg k0 v0 else cfg) rest) k
          = dget cfg k
      by_cases hv : valid_params.contains k0
      · have hne : k ≠ k0 := by
          intro he
          exact hk (he ▸ (list_contains_iff _ _).1 hv)
        rw [if_pos hv, ih, dget_dinsert_ne cfg k0 k v0 hne]
      · rw [if_neg hv, ih]

theorem configure_writes_listed (kwargs : List (String × PyVal))
    (cfg : List (String × PyVal)) (k : String) (v : PyVal)
    (hnd : (kwargs.map Prod.fst).Nodup) (hmem : (k, v) ∈ kwargs)
    (hval : k ∈ valid_params) :
    dget (configureModelParameters cfg kwargs) k = some v := by
  induction kwargs generalizing cfg with
  | nil => exact absurd hmem (List.not_mem_nil _)
  | cons kv rest ih =>
      obtain ⟨k0, v0⟩ := kv
      simp only [List.map_cons, List.nodup_cons] at hnd
      show dget (configureModelParameters
        (if valid_params.contains k0 then dinsert cfg k0 v0 else cfg) rest) k
          = some v
      rcases List.mem_cons.1 hmem with heq | htail
      · obtain ⟨hk, hv⟩ := Prod.mk.injEq .. ▸ heq
        subst hk
        subst hv
        rw [if_pos ((list_contains_iff _ _).2 hval),
          configure_keeps_unpassed rest _ k hnd.1,
          dget_dinsert_self]
      · exact ih _ hnd.2 htail

/-- C9: `configure_model_parameters` updates `model_config` only at
whitelisted keys.  Keys not passed in the call keep their previous value;
passed keys outside the whitelist {temperature, top_p, top_k,
num_predict, num_ctx, repeat_penalty, seed} are dropped (warned about)
and leave the config unchanged; each passed whitelisted key is written
with its given value (Python kwargs keys are necessarily distinct, hence
the `Nodup` hypothesis). -/
theorem configure_model_parameters_frame (cfg kwargs : List (String × PyVal)) :
    (∀ k, k ∉ kwargs.map Prod.fst →
      dget (configureModelParameters cfg kwargs) k = dget cfg k) ∧
    (∀ k, k ∉ valid_params →
      dget (configureModelParameters cfg kwargs) k = dget cfg k) ∧
    ((kwargs.map Prod.fst).Nodup → ∀ k v, (k, v) ∈ kwargs →
      k ∈ valid_params →
      dget (configureModelParameters cfg kwargs) k = some v) :=
  ⟨fun k hk => configure_keeps_unpassed kwargs cfg k hk,
   fun k hk => configure_keeps_unlisted kwargs cfg k hk,
   fun hnd k v hmem hval => configure_writes_listed kwargs cfg k v hnd hmem hval⟩

/-- Witness for C9: passing `temperature` (whitelisted) and `bogus`
(unknown) to a config holding `temperature` and `seed` overwrites
`temperature`, drops `bogus`, and keeps `seed`. -/
theorem configure_model_parameters_frame_witness :
    dget (configureModelParameters
        [("temperature", PyVal.rat 1), ("seed", PyVal.nat 42)]
        [("temperature", PyVal.rat 2), ("bogus", PyVal.str "x")])
      "temperature" = some (PyVal.rat 2) ∧
    dget (configureModelParameters
        [("temperature", PyVal.rat 1), ("seed", PyVal.nat 42)]
        [("temperature", PyVal.rat 2), ("bogus", PyVal.str "x")])
      "bogus" = dget [("temperature", PyVal.rat 1), ("seed", PyVal.nat 42)]
        "bogus" ∧
    dget (configureModelParameters
        [("temperature", PyVal.rat 1), ("seed", PyVal.nat 42)]
        [("temperature", PyVal.rat 2), ("bogus", PyVal.str "x")])
      "seed" = dget [("temperature", PyVal.rat 1), ("seed", PyVal.nat 42)]
        "seed" := by
  have h := configure_model_parameters_frame
    [("temperature", PyVal.rat 1), ("seed", PyVal.nat 42)]
    [("temperature", PyVal.rat 2), ("bogus", PyVal.str "x")]
  refine ⟨h.2.2 ?_ "temperature" (PyVal.rat 2) ?_ ?_, h.2.1 "bogus" ?_,
    h.1 "seed" ?_⟩
  · simp
  · exact List.mem_cons_self _ _
  · simp [valid_params]
  · simp [valid_params]
  · simp

namespace CircuitBreaker

theorem recordFailure_threshold (cb : CircuitBreaker) (t : ℚ) :
    (cb.recordFailure t).failure_threshold = cb.failure_threshold := rfl

theorem recordFailure_timeout (cb : CircuitBreaker) (t : ℚ) :
    (cb.recordFailure t).recovery_timeout = cb.recovery_timeout := rfl

theorem applyFailures_threshold (cb : CircuitBreaker) (ts : List ℚ) :
    (cb.applyFailures ts).failure_threshold = cb.failure_threshold := by
  induction ts generalizing cb with
  | nil => rfl
  | cons t rest ih => exact (ih (cb.recordFailure t)).trans rfl

theorem applyFailures_timeout (cb : CircuitBreaker) (ts : List ℚ) :
    (cb.applyFailures ts).recovery_timeout = cb.recovery_timeout := by
  induction ts generalizing cb with
  | nil => rfl
  | cons t rest ih => exact (ih (cb.recordFailure t)).trans rfl

theorem applyFailures_count (cb : CircuitBreaker) (ts : List ℚ) :
    (cb.applyFailures ts).failure_count = cb.failure_count + ts.length := by
  induction ts generalizing cb with
  | nil => rfl
  | cons t rest ih =>
      show ((cb.recordFailure t).applyFailures rest).failure_count = _
      rw [ih]
      simp [recordFailure]
      omega

theorem applyFailures_last (cb : CircuitBreaker) (ts : List ℚ) (hne : ts ≠ []) :
    (cb.applyFailures ts).last_failure_time = ts.getLast hne := by
  induction ts generalizing cb with
  | nil => exact absurd rfl hne
  | cons t rest ih =>
      cases rest with
      | nil => rfl
      | cons t' rest' =>
          show ((cb.recordFailure t).applyFailures (t' :: rest')).last_failure_time = _
          rw [ih (cb.recordFailure t) (List.cons_ne_nil t' rest')]
          exact (List.getLast_cons (List.cons_ne_nil t' rest')).symm

theorem applyFailures_open (cb : CircuitBreaker) (ts : List ℚ) (hne : ts ≠ [])
    (hth : cb.failure_count + ts.length ≥ cb.failure_threshold) :
    (cb.applyFailures ts).state = .open := by
  induction ts generalizing cb with
  | nil => exact absurd rfl hne
  | cons t rest ih =>
      cases rest with
      | nil =>
          show (if cb.failure_count + 1 ≥ cb.failure_threshold then CBState.open
            else cb.state) = CBState.open
          simp only [List.length_cons, List.length_nil] at hth
          rw [if_pos (by omega)]
      | cons t' rest' =>
          show ((cb.recordFailure t).applyFailures (t' :: rest')).state = .open
          refine ih (cb.recordFailure t) (List.cons_ne_nil t' rest') ?_
          rw [recordFailure_threshold]
          show cb.failure_count + 1 + (t' :: rest').length ≥ _
          simp only [List.length_cons] at hth ⊢
          omega

theorem canExecute_open_le (cb : CircuitBreaker) (now : ℚ)
    (hs : cb.state = .open)
    (h : now - cb.last_failure_time ≤ cb.recovery_timeout) :
    cb.canExecute now = (false, cb) := by
  obtain ⟨a, b, c, d, s⟩ := cb
  change s = .open at hs
  subst hs
  show (if now - d > b then _ else (false, _)) = _
  rw [if_neg (not_lt.2 h)]

theorem canExecute_open_gt (cb : CircuitBreaker) (now : ℚ)
    (hs : cb.state = .open)
    (h : now - cb.last_failure_time > cb.recovery_timeout) :
    cb.canExecute now = (true, { cb with state := .halfOpen }) := by
  obtain ⟨a, b, c, d, s⟩ := cb
  change s = .open at hs
  subst hs
  show (if now - d > b then (true, _) else _) = _
  rw [if_pos h]

theorem canExecute_halfOpen (cb : CircuitBreaker) (now : ℚ)
    (hs : cb.state = .halfOpen) :
    cb.canExecute now = (true, cb) := by
  obtain ⟨a, b, c, d, s⟩ := cb
  change s = .halfOpen at hs
  subst hs
  rfl

theorem canExecute_closed (cb : CircuitBreaker) (now : ℚ)
    (hs : cb.state = .closed) :
    cb.canExecute now = (true, cb) := by
  obtain ⟨a, b, c, d, s⟩ := cb
  change s = .closed at hs
  subst hs
  rfl

end CircuitBreaker

/-- C4 counterexample: the half-open probe is NOT granted exactly once.
Threshold 1, recovery timeout 0: one failure at time 0 opens the
breaker; at time 1 `can_execute()` returns true and transitions to
half-open, and a second `can_execute()` call with no intervening
`record_success`/`record_failure` returns true AGAIN, because the
half-open branch of `can_execute` always returns true. -/
theorem circuit_breaker_probe_not_exactly_once :
    ((((CircuitBreaker.init 1 0).recordFailure 0).canExecute 1).1 = true) ∧
    (((((CircuitBreaker.init 1 0).recordFailure 0).canExecute 1).2.canExecute 1).1
      = true) := by
  have h1 : (CircuitBreaker.init 1 0).recordFailure 0 =
      ⟨1, 0, 1, 0, .open⟩ := by
    show ({ failure_threshold := 1, recovery_timeout := 0, failure_count := 0 + 1,
            last_failure_time := 0,
            state := if 0 + 1 ≥ 1 then CBState.open else CBState.closed } :
          CircuitBreaker) = ⟨1, 0, 1, 0, .open⟩
    norm_num
  have h2 : (⟨1, 0, 1, 0, .open⟩ : CircuitBreaker).canExecute 1 =
      (true, ⟨1, 0, 1, 0, .halfOpen⟩) := by
    refine (CircuitBreaker.canExecute_open_gt _ 1 rfl (by norm_num)).trans rfl
  rw [h1, h2]
  exact ⟨rfl, (congrArg Prod.fst
    (CircuitBreaker.canExecute_halfOpen ⟨1, 0, 1, 0, .halfOpen⟩ 1 rfl))⟩

/-- C4 (amended): starting closed with failure count 0, after
`failure_threshold ≥ 1` consecutive `record_failure` calls the breaker
is open and `can_execute()` returns false as long as at most
`recovery_timeout` seconds have elapsed since the last recorded failure;
once strictly more than `recovery_timeout` seconds have elapsed,
`can_execute()` returns true and moves the breaker to half-open, where
every further `can_execute()` also returns true (not just one probe);
and `record_success` on a half-open breaker returns it to closed with
the failure counter reset to 0. -/
theorem circuit_breaker_transitions (n : Nat) (rt : ℚ) (ts : List ℚ)
    (now later after : ℚ) (probe : CircuitBreaker)
    (hn : 1 ≤ n) (hlen : ts.length = n) (hne : ts ≠ [])
    (hrecent : now - ts.getLast hne ≤ rt)
    (helapsed : later - ts.getLast hne > rt)
    (hprobe : probe.state = .halfOpen) :
    ((((CircuitBreaker.init n rt).applyFailures ts).canExecute now).1 = false) ∧
    ((((CircuitBreaker.init n rt).applyFailures ts).canExecute later).1 = true ∧
      (((CircuitBreaker.init n rt).applyFailures ts).canExecute later).2.state
        = .halfOpen) ∧
    ((probe.canExecute after).1 = true ∧
      probe.recordSuccess.state = .closed ∧
      probe.recordSuccess.failure_count = 0) := by
  have hstate : ((CircuitBreaker.init n rt).applyFailures ts).state = .open := by
    refine CircuitBreaker.applyFailures_open _ ts hne ?_
    show (0 : Nat) + ts.length ≥ n
    omega
  have hlast : ((CircuitBreaker.init n rt).applyFailures ts).last_failure_time
      = ts.getLast hne := CircuitBreaker.applyFailures_last _ ts hne
  have hrt : ((CircuitBreaker.init n rt).applyFailures ts).recovery_timeout
      = rt := CircuitBreaker.applyFailures_timeout _ ts
  refine ⟨?_, ⟨?_, ?_⟩, ?_, rfl, rfl⟩
  · rw [CircuitBreaker.canExecute_open_le _ now hstate
      (by rw [hlast, hrt]; exact hrecent)]
  · rw [CircuitBreaker.canExecute_open_gt _ later hstate
      (by rw [hlast, hrt]; exact helapsed)]
  · rw [CircuitBreaker.canExecute_open_gt _ later hstate
      (by rw [hlast, hrt]; exact helapsed)]
  · rw [CircuitBreaker.canExecute_halfOpen probe after hprobe]

/-- Witness for the amended C4: threshold 1, timeout 0, a single failure
at time 0; queried at times 0 and 1, with a concrete half-open probe
breaker. -/
theorem circuit_breaker_transitions_witness :
    ((((CircuitBreaker.init 1 0).applyFailures [0]).canExecute 0).1 = false) ∧
    ((((CircuitBreaker.init 1 0).applyFailures [0]).canExecute 1).1 = true ∧
      (((CircuitBreaker.init 1 0).applyFailures [0]).canExecute 1).2.state
        = .halfOpen) ∧
    (((⟨1, 0, 1, 0, .halfOpen⟩ : CircuitBreaker).canExecute 2).1 = true ∧
      (⟨1, 0, 1, 0, .halfOpen⟩ : CircuitBreaker).recordSuccess.state = .closed ∧
      (⟨1, 0, 1, 0, .halfOpen⟩ : CircuitBreaker).recordSuccess.failure_count
        = 0) :=
  circuit_breaker_transitions 1 0 [0] 0 1 2 ⟨1, 0, 1, 0, .halfOpen⟩
    (by norm_num) (by simp) (by simp) (by norm_num) (by norm_num) rfl

namespace CircuitBreaker

theorem recordFailure_state_of_lt (cb : CircuitBreaker) (t : ℚ)
    (h : cb.failure_count + 1 < cb.failure_threshold) :
    (cb.recordFailure t).state = cb.state := by
  show (if cb.failure_count + 1 ≥ cb.failure_threshold then CBState.open
    else cb.state) = cb.state
  rw [if_neg (by omega)]

theorem recordFailure_state_of_open (cb : CircuitBreaker) (t : ℚ)
    (h : cb.state = .open) : (cb.recordFailure t).state = .open := by
  show (if cb.failure_count + 1 ≥ cb.failure_threshold then CBState.open
    else cb.state) = .open
  split
  · rfl
  · exact h

end CircuitBreaker

theorem syncGo_closed_success (transport : Nat → TransportResult)
    (times : Nat → ℚ) (mr : Nat) (body : String) :
    ∀ fuel attempt cb, 1 ≤ fuel → attempt + fuel = mr + 1 →
      cb.state = .closed →
      cb.failure_count + fuel ≤ cb.failure_threshold →
      (∀ i, attempt ≤ i → i < mr → (transport i).isFail = true) →
      transport mr = .resp 200 body →
      (syncGo transport times mr fuel attempt cb).result = .ok (200, body) ∧
      (syncGo transport times mr fuel attempt cb).calls = fuel ∧
      (syncGo transport times mr fuel attempt cb).sleeps
        = (List.range' attempt (mr - attempt)).map (fun a => 2 ^ a) := by
  intro fuel
  induction fuel with
  | zero => intro attempt cb h1 _ _ _ _ _; omega
  | succ f ih =>
      intro attempt cb _ hsum hclosed hcount hfail hsucc
      have hce := CircuitBreaker.canExecute_closed cb (times attempt) hclosed
      by_cases hf : f = 0
      · subst hf
        have ha : attempt = mr := by omega
        subst ha
        simp [syncGo, hce, hsucc]
      · have hlt : attempt < mr := by omega
        have hane : attempt ≠ mr := by omega
        have hthis : (transport attempt).isFail = true :=
          hfail attempt le_rfl hlt
        have hstate2 : (cb.recordFailure (times attempt)).state = .closed :=
          (CircuitBreaker.recordFailure_state_of_lt cb (times attempt)
            (by omega)).trans hclosed
        have hcount2 : (cb.recordFailure (times attempt)).failure_count + f ≤
            (cb.recordFailure (times attempt)).failure_threshold := by
          show cb.failure_count + 1 + f ≤ cb.failure_threshold
          omega
        obtain ⟨hr, hc, hs⟩ := ih (attempt + 1) (cb.recordFailure (times attempt))
          (by omega) (by omega) hstate2 hcount2
          (fun i hi hm => hfail i (by omega) hm) hsucc
        have hrange : mr - attempt = (mr - (attempt + 1)) + 1 := by omega
        rcases htr : transport attempt with ⟨code, b⟩ | msg
        · have hcode2 : 400 ≤ code ∧ code < 600 := by
            rw [htr] at hthis
            simpa [TransportResult.isFail] using hthis
          have hcode : code ≠ 200 := by omega
          refine ⟨?_, ?_, ?_⟩
          · simp [syncGo, hce, htr, hcode, hcode2, failCont, hane, hr]
          · simp [syncGo, hce, htr, hcode, hcode2, failCont, hane, hc, Nat.add_comm]
          · simp [syncGo, hce, htr, hcode, hcode2, failCont, hane, hs, hrange,
              List.range'_succ]
        · refine ⟨?_, ?_, ?_⟩
          · simp [syncGo, hce, htr, failCont, hane, hr]
          · simp [syncGo, hce, htr, failCont, hane, hc, Nat.add_comm]
          · simp [syncGo, hce, htr, failCont, hane, hs, hrange,
              List.range'_succ]

theorem syncGo_closed_all_fail (transport : Nat → TransportResult)
    (times : Nat → ℚ) (mr : Nat) :
    ∀ fuel attempt cb, 1 ≤ fuel → attempt + fuel = mr + 1 →
      cb.state = .closed →
      cb.failure_count + fuel ≤ cb.failure_threshold →
      (∀ i, attempt ≤ i → i ≤ mr → (transport i).isFail = true) →
      (syncGo transport times mr fuel attempt cb).result
        = .error (transport mr).errMsg ∧
      (syncGo transport times mr fuel attempt cb).calls = fuel ∧
      (syncGo transport times mr fuel attempt cb).sleeps
        = (List.range' attempt (mr - attempt)).map (fun a => 2 ^ a) := by
  intro fuel
  induction fuel with
  | zero => intro attempt cb h1 _ _ _ _; omega
  | succ f ih =>
      intro attempt cb _ hsum hclosed hcount hfail
      have hce := CircuitBreaker.canExecute_closed cb (times attempt) hclosed
      by_cases hf : f = 0
      · subst hf
        have ha : attempt = mr := by omega
        subst ha
        have hthis : (transport attempt).isFail = true :=
          hfail attempt le_rfl le_rfl
        rcases htr : transport attempt with ⟨code, b⟩ | msg
        · have hcode2 : 400 ≤ code ∧ code < 600 := by
            rw [htr] at hthis
            simpa [TransportResult.isFail] using hthis
          have hcode : code ≠ 200 := by omega
          simp [syncGo, hce, htr, hcode, hcode2, failCont, TransportResult.errMsg]
        · simp [syncGo, hce, htr, failCont, TransportResult.errMsg]
      · have hane : attempt ≠ mr := by omega
        have hthis : (transport attempt).isFail = true :=
          hfail attempt le_rfl (by omega)
        have hstate2 : (cb.recordFailure (times attempt)).state = .closed :=
          (CircuitBreaker.recordFailure_state_of_lt cb (times attempt)
            (by omega)).trans hclosed
        have hcount2 : (cb.recordFailure (times attempt)).failure_count + f ≤
            (cb.recordFailure (times attempt)).failure_threshold := by
          show cb.failure_count + 1 + f ≤ cb.failure_threshold
          omega
        obtain ⟨hr, hc, hs⟩ := ih (attempt + 1) (cb.recordFailure (times attempt))
          (by omega) (by omega) hstate2 hcount2
          (fun i hi hm => hfail i (by omega) hm)
        have hrange : mr - attempt = (mr - (attempt + 1)) + 1 := by omega
        rcases htr : transport attempt with ⟨code, b⟩ | msg
        · have hcode2 : 400 ≤ code ∧ code < 600 := by
            rw [htr] at hthis
            simpa [TransportResult.isFail] using hthis
          have hcode : code ≠ 200 := by omega
          refine ⟨?_, ?_, ?_⟩
          · simp [syncGo, hce, htr, hcode, hcode2, failCont, hane, hr]
          · simp [syncGo, hce, htr, hcode, hcode2, failCont, hane, hc, Nat.add_comm]
          · simp [syncGo, hce, htr, hcode, hcode2, failCont, hane, hs, hrange,
              List.range'_succ]
        · refine ⟨?_, ?_, ?_⟩
          · simp [syncGo, hce, htr, failCont, hane, hr]
          · simp [syncGo, hce, htr, failCont, hane, hc, Nat.add_comm]
          · simp [syncGo, hce, htr, failCont, hane, hs, hrange,
              List.range'_succ]

theorem syncGo_open_refused (transport : Nat → TransportResult)
    (times : Nat → ℚ) (mr : Nat) (rt : ℚ) :
    ∀ fuel attempt cb, 1 ≤ fuel → attempt + fuel = mr + 1 →
      cb.state = .open → cb.recovery_timeout = rt →
      times attempt - cb.last_failure_time ≤ rt →
      (∀ i, times (i + 1) - times i ≤ rt) →
      (syncGo transport times mr fuel attempt cb).result
        = .error "Circuit breaker is open" ∧
      (syncGo transport times mr fuel attempt cb).calls = 0 ∧
      (syncGo transport times mr fuel attempt cb).sleeps
        = (List.range' attempt (mr - attempt)).map (fun a => 2 ^ a) := by
  intro fuel
  induction fuel with
  | zero => intro attempt cb h1 _ _ _ _ _; omega
  | succ f ih =>
      intro attempt cb _ hsum hopen hrt hrecent hstep
      have hce := CircuitBreaker.canExecute_open_le cb (times attempt) hopen
        (by rw [hrt]; exact hrecent)
      by_cases hf : f = 0
      · subst hf
        have ha : attempt = mr := by omega
        subst ha
        simp [syncGo, hce, failCont]
      · have hane : attempt ≠ mr := by omega
        have hopen2 : (cb.recordFailure (times attempt)).state = .open :=
          CircuitBreaker.recordFailure_state_of_open cb (times attempt) hopen
        have hrt2 : (cb.recordFailure (times attempt)).recovery_timeout = rt :=
          hrt
        have hrec2 : times (attempt + 1) -
            (cb.recordFailure (times attempt)).last_failure_time ≤ rt :=
          hstep attempt
        obtain ⟨hr, hc, hs⟩ := ih (attempt + 1) (cb.recordFailure (times attempt))
          (by omega) (by omega) hopen2 hrt2 hrec2 hstep
        have hrange : mr - attempt = (mr - (attempt + 1)) + 1 := by omega
        refine ⟨?_, ?_, ?_⟩
        · simp [syncGo, hce, failCont, hane, hr]
        · simp [syncGo, hce, failCont, hane, hc]
        · simp [syncGo, hce, failCont, hane, hs, hrange, List.range'_succ]

/-- C5 counterexample: the claim counts every non-200 status as a
failed attempt that triggers backoff, but `raise_for_status()` raises
only for 4xx/5xx.  A transport answering 204 on both attempts
(`max_retries = 1`, breaker fresh and closed): by the claim, attempt 0
is a non-final failed attempt, so a sleep of `2 ^ 0 = 1` second should
occur and the eventual raise should follow `max_retries + 1` failed
attempts — yet the loop records no failure and performs NO sleep
(`sleeps = []`), silently advancing both times and ending at the
generic line-144 raise. -/
theorem non_error_non_200_skips_backoff :
    (makeSyncRequest (fun _ => TransportResult.resp 204 "no content")
        (fun _ => 0) 1 (CircuitBreaker.init 5 60)).sleeps = [] ∧
    (makeSyncRequest (fun _ => TransportResult.resp 204 "no content")
        (fun _ => 0) 1 (CircuitBreaker.init 5 60)).calls = 2 ∧
    (makeSyncRequest (fun _ => TransportResult.resp 204 "no content")
        (fun _ => 0) 1 (CircuitBreaker.init 5 60)).result
      = .error "Failed to make request after 2 attempts" :=
  ⟨rfl, rfl, rfl⟩

/-- C5 (amended): with the circuit breaker permitting execution
throughout (it starts closed with enough headroom below
`failure_threshold` that no failure in the run can open it), a transport
that fails — where "fails" means a 4xx/5xx status (the statuses
`raise_for_status()` raises for) or a transport exception, not merely
any non-200 — on exactly the first `max_retries` attempts and succeeds
on the next performs exactly `max_retries + 1` underlying call attempts
and returns the successful response; a transport failing on all
`max_retries + 1` attempts raises after exactly `max_retries + 1`
attempts, sleeping `2 ^ attempt` seconds after every non-final failed
attempt (attempts 0 .. max_retries-1).  (A non-200 status outside
400-599 takes neither path: the loop advances with no failure recorded
and no sleep.) -/
theorem make_sync_request_retry_bound (mr : Nat) (cb : CircuitBreaker)
    (times : Nat → ℚ) (t1 t2 : Nat → TransportResult) (body : String)
    (hclosed : cb.state = .closed)
    (hroom : cb.failure_count + (mr + 1) ≤ cb.failure_threshold)
    (h1fail : ∀ i, i < mr → (t1 i).isFail = true)
    (h1succ : t1 mr = .resp 200 body)
    (h2fail : ∀ i, i ≤ mr → (t2 i).isFail = true) :
    (makeSyncRequest t1 times mr cb).result = .ok (200, body) ∧
    (makeSyncRequest t1 times mr cb).calls = mr + 1 ∧
    (makeSyncRequest t2 times mr cb).result = .error (t2 mr).errMsg ∧
    (makeSyncRequest t2 times mr cb).calls = mr + 1 ∧
    (makeSyncRequest t2 times mr cb).sleeps
      = (List.range mr).map (fun a => 2 ^ a) := by
  obtain ⟨hr1, hc1, _⟩ := syncGo_closed_success t1 times mr body (mr + 1) 0 cb
    (by omega) (by omega) hclosed hroom (fun i _ hm => h1fail i hm) h1succ
  obtain ⟨hr2, hc2, hs2⟩ := syncGo_closed_all_fail t2 times mr (mr + 1) 0 cb
    (by omega) (by omega) hclosed hroom (fun i _ hm => h2fail i hm)
  refine ⟨hr1, hc1, hr2, hc2, ?_⟩
  show (syncGo t2 times mr (mr + 1) 0 cb).sleeps = _
  rw [hs2, List.range_eq_range']
  simp

/-- Witness for C5 with `max_retries = 1`: a transport that times out
once then succeeds, and one that is down on both attempts. -/
theorem make_sync_request_retry_bound_witness :
    (makeSyncRequest
        (fun i => if i = 0 then TransportResult.exn "timeout"
          else TransportResult.resp 200 "pong")
        (fun _ => 0) 1 (CircuitBreaker.init 3 60)).result
      = .ok (200, "pong") ∧
    (makeSyncRequest
        (fun i => if i = 0 then TransportResult.exn "timeout"
          else TransportResult.resp 200 "pong")
        (fun _ => 0) 1 (CircuitBreaker.init 3 60)).calls = 2 ∧
    (makeSyncRequest (fun _ => TransportResult.exn "down")
        (fun _ => 0) 1 (CircuitBreaker.init 3 60)).result = .error "down" ∧
    (makeSyncRequest (fun _ => TransportResult.exn "down")
        (fun _ => 0) 1 (CircuitBreaker.init 3 60)).calls = 2 ∧
    (makeSyncRequest (fun _ => TransportResult.exn "down")
        (fun _ => 0) 1 (CircuitBreaker.init 3 60)).sleeps = [1] := by
  have h := make_sync_request_retry_bound 1 (CircuitBreaker.init 3 60)
    (fun _ => 0)
    (fun i => if i = 0 then TransportResult.exn "timeout"
      else TransportResult.resp 200 "pong")
    (fun _ => TransportResult.exn "down") "pong"
    rfl (by show (0 : Nat) + 2 ≤ 3; norm_num)
    (by
      intro i hi
      have h0 : i = 0 := by omega
      subst h0
      rfl)
    rfl (fun i _ => rfl)
  exact ⟨h.1, h.2.1, h.2.2.1, h.2.2.2.1, h.2.2.2.2⟩

/-- C6 counterexample: a circuit-breaker refusal is NOT raised
immediately past the retry loop.  Breaker open (threshold 1, recovery
timeout 100, last failure at time 0), clock stuck at 0, `max_retries =
1`: the refusal at attempt 0 is caught by the retry handler, a backoff
sleep of `2 ^ 0 = 1` second is performed and a second attempt is
consumed before the circuit-open error reaches the caller — the claim
says no backoff sleep and no further attempts.  (`calls = 0` — the part
about never touching the network — does hold.) -/
theorem circuit_open_goes_through_backoff :
    (makeSyncRequest (fun _ => TransportResult.exn "net") (fun _ => 0) 1
        ⟨1, 100, 1, 0, .open⟩).sleeps = [1] ∧
    (makeSyncRequest (fun _ => TransportResult.exn "net") (fun _ => 0) 1
        ⟨1, 100, 1, 0, .open⟩).calls = 0 ∧
    (makeSyncRequest (fun _ => TransportResult.exn "net") (fun _ => 0) 1
        ⟨1, 100, 1, 0, .open⟩).result = .error "Circuit breaker is open" := by
  obtain ⟨hr, hc, hs⟩ := syncGo_open_refused
    (fun _ => TransportResult.exn "net") (fun _ => 0) 1 100 2 0
    ⟨1, 100, 1, 0, .open⟩ (by omega) (by omega) rfl rfl
    (by norm_num) (fun i => by norm_num)
  exact ⟨hs, hc, hr⟩

/-- C6 (amended): whenever the circuit breaker refuses, no network I/O
happens at that attempt — but the circuit-open raise is caught by the
same `except` handler as network failures, so it does NOT bypass
retry/backoff.  For a breaker that stays refusing for the whole loop
(open, with clock readings never more than `recovery_timeout` past the
previous failure), the call makes zero transport invocations, performs
the full backoff schedule `2^0 .. 2^(max_retries-1)`, and only after all
`max_retries + 1` attempts raises the circuit-open error. -/
theorem circuit_open_refused_no_network_io (mr : Nat) (cb : CircuitBreaker)
    (times : Nat → ℚ) (transport : Nat → TransportResult)
    (hopen : cb.state = .open)
    (hfirst : times 0 - cb.last_failure_time ≤ cb.recovery_timeout)
    (hstep : ∀ i, times (i + 1) - times i ≤ cb.recovery_timeout) :
    (makeSyncRequest transport times mr cb).calls = 0 ∧
    (makeSyncRequest transport times mr cb).result
      = .error "Circuit breaker is open" ∧
    (makeSyncRequest transport times mr cb).sleeps
      = (List.range mr).map (fun a => 2 ^ a) := by
  obtain ⟨hr, hc, hs⟩ := syncGo_open_refused transport times mr
    cb.recovery_timeout (mr + 1) 0 cb (by omega) (by omega) hopen rfl
    hfirst hstep
  refine ⟨hc, hr, ?_⟩
  show (syncGo transport times mr (mr + 1) 0 cb).sleeps = _
  rw [hs, List.range_eq_range']
  simp

/-- Witness for the amended C6: breaker open with threshold 2, timeout
50, last failure at time 10; clock advancing one second per attempt,
`max_retries = 2`. -/
theorem circuit_open_refused_no_network_io_witness :
    (makeSyncRequest (fun _ => TransportResult.resp 200 "unused")
        (fun i => 10 + (i : ℚ)) 2 ⟨2, 50, 5, 10, .open⟩).calls = 0 ∧
    (makeSyncRequest (fun _ => TransportResult.resp 200 "unused")
        (fun i => 10 + (i : ℚ)) 2 ⟨2, 50, 5, 10, .open⟩).result
      = .error "Circuit breaker is open" ∧
    (makeSyncRequest (fun _ => TransportResult.resp 200 "unused")
        (fun i => 10 + (i : ℚ)) 2 ⟨2, 50, 5, 10, .open⟩).sleeps = [1, 2] := by
  have h := circuit_open_refused_no_network_io 2 ⟨2, 50, 5, 10, .open⟩
    (fun i => 10 + (i : ℚ)) (fun _ => TransportResult.resp 200 "unused")
    rfl (by norm_num)
    (by
      intro i
      push_cast
      linarith)
  exact ⟨h.1, h.2.1, by simpa using h.2.2⟩

end XlAi
